import Mathlib

/-!
Shallow embedding of src/rcu/list_rcu.c, an RCU-protected linked list of
book records.

The kernel list my_library.books is modelled as a Lean list in traversal
order: list_for_each_entry_rcu visits nodes starting from the head, and
list_add_rcu links a new node directly after the list head, so the most
recently added record is visited first.  Each C function that mutates the
global library is modelled as a function taking the library as an explicit
argument and returning the C integer return code together with the new
library; the record handed to reclamation (synchronize_rcu followed by
kfree, or call_rcu with book_reclaim_callback) is returned as an Option so
theorems can speak about retirement, and the number of kzalloc calls is
recorded so theorems can speak about allocation.  kzalloc is modelled as
always succeeding, so the -ENOMEM early-return paths are unreachable in
the model; the remaining return codes are 0 (success), -22 (-EINVAL) and
-1 as in the source.
-/

namespace ListRcu

/-- struct book: id, name[64], author[64], borrow.  The intrusive
list_head and rcu_head bookkeeping fields are represented by the ambient
list structure and the retired-record component of the results. -/
structure Book where
  id : Int
  name : String
  author : String
  borrow : Int
  deriving Repr, DecidableEq

/-- The books field of struct library, in traversal order. -/
abbrev Library := List Book

/-- add_book: kzalloc a record, fill id/name/author (strncpy bounds the
two strings by the 64-byte buffers), set borrow = 1, then under the
spinlock list_add_rcu the node right after the list head, making it the
first record in traversal order.  Returns the C return code paired with
the updated library; allocation is modelled as succeeding, so the code is
always 0. -/
def add_book (id : Int) (name author : String) (lib : Library) : Int × Library :=
  let new_book : Book :=
    { id := id, name := name.take 64, author := author.take 64, borrow := 1 }
  (0, new_book :: lib)

/-- The scan loop of update_book (list_for_each_entry_rcu with break):
the first record in traversal order whose id matches, if any. -/
def find_book (id : Int) : Library → Option Book
  | [] => none
  | b :: rest => if b.id = id then some b else find_book id rest

/-- list_replace_rcu of the first record whose id matches, replaced by
nb; the list is returned unchanged when no record matches. -/
def replace_first (id : Int) (nb : Book) : Library → Library
  | [] => []
  | b :: rest => if b.id = id then nb :: rest else b :: replace_first id nb rest

/-- Outcome of update_book: the C return code, the library after the
call, the record handed to reclamation (none when nothing was retired),
and the number of kzalloc calls performed. -/
structure UpdateResult where
  ret : Int
  lib : Library
  retired : Option Book
  allocs : Nat
  deriving Repr, DecidableEq

/-- update_book: under rcu_read_lock scan for the first record whose id
matches; if none, return -EINVAL; if its borrow field already equals the
requested value, return -EINVAL; otherwise kzalloc a new record, memcpy
the old record into it, overwrite borrow, list_replace_rcu the old node
by the new one under the spinlock, and hand the old record to reclamation
(call_rcu when async is nonzero, else synchronize_rcu and kfree). -/
def update_book (id : Int) (async : Int) (borrow : Int) (lib : Library) : UpdateResult :=
  match find_book id lib with
  | none => { ret := -22, lib := lib, retired := none, allocs := 0 }
  | some old_b =>
    if old_b.borrow = borrow then
      { ret := -22, lib := lib, retired := none, allocs := 0 }
    else
      let new_b : Book := { old_b with borrow := borrow }
      { ret := 0, lib := replace_first id new_b lib, retired := some old_b, allocs := 1 }

/-- book_is_borrow: under rcu_read_lock walk the list and return the
borrow field of the first record whose id matches, or -1 when none
matches. -/
def book_is_borrow (id : Int) : Library → Int
  | [] => -1
  | b :: rest => if b.id = id then b.borrow else book_is_borrow id rest

/-- Outcome of delete_book: the C return code, the library after the
call, and the record handed to reclamation. -/
structure DeleteResult where
  ret : Int
  lib : Library
  retired : Option Book
  deriving Repr, DecidableEq

/-- delete_book: under the spinlock scan in traversal order, list_del_rcu
the first record whose id matches and hand it to reclamation (call_rcu
when async is nonzero, else synchronize_rcu and kfree); return -1 when no
record matches, leaving the list untouched. -/
def delete_book (id : Int) (async : Int) : Library → DeleteResult
  | [] => { ret := -1, lib := [], retired := none }
  | b :: rest =>
    if b.id = id then
      { ret := 0, lib := rest, retired := some b }
    else
      let r := delete_book id async rest
      { ret := r.ret, lib := b :: r.lib, retired := r.retired }

/-- print_book: under rcu_read_lock walk the list and print the fields of
the first record whose id matches; modelled as returning that record
(none when the not-exist message is printed instead). -/
def print_book (id : Int) : Library → Option Book
  | [] => none
  | b :: rest => if b.id = id then some b else print_book id rest

/-- Number of published records carrying a given key. -/
def pubCount (k : Int) (lib : Library) : Nat :=
  (lib.filter fun b => b.id == k).length

/-- The spec invariant: at most one published record per key. -/
def uniqueKeys (lib : Library) : Prop :=
  ∀ k : Int, pubCount k lib ≤ 1

/-- The first record inserted by the test_example harness. -/
def book0 : Book :=
  { id := 0, name := "A journey of linux kernel", author := "Tom Hoter", borrow := 1 }

/-- The second record inserted by the test_example harness. -/
def book1 : Book :=
  { id := 1, name := "Inside Linux Kernel", author := "Steve Jobs", borrow := 1 }

/-- The library after the two inserts of the test_example harness: book1
was added last, so it is first in traversal order. -/
def demoLibrary : Library := [book1, book0]

/-- A library holding two records with the same id 0, reachable because
add_book performs no duplicate-key check. -/
def dupLibrary : Library :=
  [{ id := 0, name := "A", author := "a", borrow := 1 },
   { id := 0, name := "B", author := "b", borrow := 0 }]

theorem pubCount_nil (k : Int) : pubCount k ([] : Library) = 0 := rfl

theorem pubCount_cons (k : Int) (b : Book) (lib : Library) :
    pubCount k (b :: lib) = (if b.id = k then 1 else 0) + pubCount k lib := by
  by_cases h : b.id = k <;> simp [pubCount, List.filter_cons, h, Nat.add_comm]

theorem book_is_borrow_of_find_none (id : Int) (lib : Library)
    (h : find_book id lib = none) : book_is_borrow id lib = -1 := by
  induction lib with
  | nil => rfl
  | cons a rest ih =>
    rw [find_book] at h
    by_cases ha : a.id = id
    · simp [ha] at h
    · rw [book_is_borrow, if_neg ha]
      exact ih (by simpa [ha] using h)

theorem find_book_of_count_zero (id : Int) (lib : Library)
    (h : pubCount id lib = 0) : find_book id lib = none := by
  induction lib with
  | nil => rfl
  | cons a rest ih =>
    rw [pubCount_cons] at h
    by_cases ha : a.id = id
    · simp [ha] at h
    · rw [find_book, if_neg ha]
      exact ih (by simpa [ha] using h)

theorem find_book_some_spec (id : Int) (b : Book) (lib : Library)
    (h : find_book id lib = some b) :
    ∃ i, ∃ hi : i < lib.length,
      lib.get ⟨i, hi⟩ = b ∧ b.id = id ∧
      ∀ j, ∀ hj : j < lib.length, j < i → (lib.get ⟨j, hj⟩).id ≠ id := by
  induction lib with
  | nil => simp [find_book] at h
  | cons a rest ih =>
    rw [find_book] at h
    by_cases ha : a.id = id
    · rw [if_pos ha] at h
      refine ⟨0, Nat.succ_pos _, ?_, ?_, ?_⟩
      · exact (Option.some.inj h)
      · rw [← Option.some.inj h]; exact ha
      · intro j hj hj0; exact absurd hj0 (Nat.not_lt_zero j)
    · rw [if_neg ha] at h
      obtain ⟨i, hi, hget, hid, hfirst⟩ := ih h
      refine ⟨i + 1, Nat.succ_lt_succ hi, hget, hid, ?_⟩
      intro j hj hji
      cases j with
      | zero => exact ha
      | succ n => exact hfirst n (Nat.lt_of_succ_lt_succ hj) (Nat.lt_of_succ_lt_succ hji)

theorem find_book_at (id : Int) (lib : Library) (i : Nat) (hi : i < lib.length)
    (hm : (lib.get ⟨i, hi⟩).id = id)
    (hf : ∀ j, ∀ hj : j < lib.length, j < i → (lib.get ⟨j, hj⟩).id ≠ id) :
    find_book id lib = some (lib.get ⟨i, hi⟩) := by
  induction lib generalizing i with
  | nil => exact absurd hi (Nat.not_lt_zero i)
  | cons a rest ih =>
    cases i with
    | zero =>
      have hm0 : a.id = id := hm
      rw [find_book, if_pos hm0]
      rfl
    | succ n =>
      have ha : a.id ≠ id := hf 0 (Nat.succ_pos _) (Nat.succ_pos n)
      rw [find_book, if_neg ha]
      exact ih n (Nat.lt_of_succ_lt_succ hi) hm
        (fun j hj hji => hf (j + 1) (Nat.succ_lt_succ hj) (Nat.succ_lt_succ hji))

theorem book_is_borrow_at (id : Int) (lib : Library) (i : Nat) (hi : i < lib.length)
    (hm : (lib.get ⟨i, hi⟩).id = id)
    (hf : ∀ j, ∀ hj : j < lib.length, j < i → (lib.get ⟨j, hj⟩).id ≠ id) :
    book_is_borrow id lib = (lib.get ⟨i, hi⟩).borrow := by
  induction lib generalizing i with
  | nil => exact absurd hi (Nat.not_lt_zero i)
  | cons a rest ih =>
    cases i with
    | zero =>
      have hm0 : a.id = id := hm
      rw [book_is_borrow, if_pos hm0]
      rfl
    | succ n =>
      have ha : a.id ≠ id := hf 0 (Nat.succ_pos _) (Nat.succ_pos n)
      rw [book_is_borrow, if_neg ha]
      exact ih n (Nat.lt_of_succ_lt_succ hi) hm
        (fun j hj hji => hf (j + 1) (Nat.succ_lt_succ hj) (Nat.succ_lt_succ hji))

theorem replace_first_at (id : Int) (nb : Book) (lib : Library) (i : Nat)
    (hi : i < lib.length) (hm : (lib.get ⟨i, hi⟩).id = id)
    (hf : ∀ j, ∀ hj : j < lib.length, j < i → (lib.get ⟨j, hj⟩).id ≠ id) :
    replace_first id nb lib = lib.set i nb := by
  induction lib generalizing i with
  | nil => exact absurd hi (Nat.not_lt_zero i)
  | cons a rest ih =>
    cases i with
    | zero =>
      have hm0 : a.id = id := hm
      rw [replace_first, if_pos hm0]
      rfl
    | succ n =>
      have ha : a.id ≠ id := hf 0 (Nat.succ_pos _) (Nat.succ_pos n)
      have hrec := ih n (Nat.lt_of_succ_lt_succ hi) hm
        (fun j hj hji => hf (j + 1) (Nat.succ_lt_succ hj) (Nat.succ_lt_succ hji))
      rw [replace_first, if_neg ha, hrec]
      rfl

theorem delete_book_at (id : Int) (async : Int) (lib : Library) (i : Nat)
    (hi : i < lib.length) (hm : (lib.get ⟨i, hi⟩).id = id)
    (hf : ∀ j, ∀ hj : j < lib.length, j < i → (lib.get ⟨j, hj⟩).id ≠ id) :
    delete_book id async lib =
      { ret := 0, lib := lib.eraseIdx i, retired := some (lib.get ⟨i, hi⟩) } := by
  induction lib generalizing i with
  | nil => exact absurd hi (Nat.not_lt_zero i)
  | cons a rest ih =>
    cases i with
    | zero =>
      have hm0 : a.id = id := hm
      rw [delete_book, if_pos hm0]
      rfl
    | succ n =>
      have ha : a.id ≠ id := hf 0 (Nat.succ_pos _) (Nat.succ_pos n)
      have hrec := ih n (Nat.lt_of_succ_lt_succ hi) hm
        (fun j hj hji => hf (j + 1) (Nat.succ_lt_succ hj) (Nat.succ_lt_succ hji))
      rw [delete_book, if_neg ha, hrec]
      rfl

theorem delete_book_not_found (id : Int) (async : Int) (lib : Library)
    (h : find_book id lib = none) :
    delete_book id async lib = { ret := -1, lib := lib, retired := none } := by
  induction lib with
  | nil => rfl
  | cons a rest ih =>
    rw [find_book] at h
    by_cases ha : a.id = id
    · simp [ha] at h
    · rw [delete_book, if_neg ha, ih (by simpa [ha] using h)]

theorem delete_book_frame (id : Int) (async : Int) (k : Int) (lib : Library)
    (hk : k ≠ id) :
    book_is_borrow k (delete_book id async lib).lib = book_is_borrow k lib := by
  induction lib with
  | nil => rfl
  | cons a rest ih =>
    by_cases ha : a.id = id
    · have hak : a.id ≠ k := by
        intro hh
        exact hk (hh.symm.trans ha)
      simp only [delete_book, if_pos ha]
      rw [book_is_borrow, if_neg hak]
    · simp only [delete_book, if_neg ha]
      by_cases hak : a.id = k
      · rw [book_is_borrow, if_pos hak, book_is_borrow, if_pos hak]
      · rw [book_is_borrow, if_neg hak, book_is_borrow, if_neg hak]
        exact ih

theorem delete_book_count (id : Int) (async : Int) (lib : Library) (b : Book)
    (h : find_book id lib = some b) :
    pubCount id (delete_book id async lib).lib + 1 = pubCount id lib := by
  induction lib with
  | nil => simp [find_book] at h
  | cons a rest ih =>
    rw [find_book] at h
    by_cases ha : a.id = id
    · rw [delete_book, if_pos ha]
      rw [pubCount_cons, if_pos ha, Nat.add_comm 1 (pubCount id rest)]
    · rw [if_neg ha] at h
      rw [delete_book, if_neg ha]
      simp only [pubCount_cons, if_neg ha, Nat.zero_add]
      exact ih h

theorem pubCount_replace_first (k id : Int) (nb : Book) (lib : Library)
    (hnb : nb.id = id) :
    pubCount k (replace_first id nb lib) = pubCount k lib := by
  induction lib with
  | nil => rfl
  | cons a rest ih =>
    by_cases ha : a.id = id
    · rw [replace_first, if_pos ha, pubCount_cons, pubCount_cons, hnb, ha]
    · rw [replace_first, if_neg ha, pubCount_cons, pubCount_cons, ih]

theorem pubCount_delete_le (k id : Int) (async : Int) (lib : Library) :
    pubCount k (delete_book id async lib).lib ≤ pubCount k lib := by
  induction lib with
  | nil => exact Nat.le_refl 0
  | cons a rest ih =>
    by_cases ha : a.id = id
    · rw [delete_book, if_pos ha, pubCount_cons]
      exact Nat.le_add_left _ _
    · rw [delete_book, if_neg ha]
      simp only [pubCount_cons]
      exact Nat.add_le_add_left ih _

/-- C7: every record created by add_book starts with borrow = 1, the
borrowed (unavailable, non-returnable) state, and immediately after the
insert a status query on that id returns 1. -/
theorem add_book_initial_status (id : Int) (name author : String) (lib : Library) :
    book_is_borrow id (add_book id name author lib).2 = 1 ∧
    ((add_book id name author lib).2.head? =
      some { id := id, name := name.take 64, author := author.take 64, borrow := 1 }) := by
  constructor
  · simp [add_book, book_is_borrow]
  · simp [add_book]

/-- C8: no lost update: insert of a key immediately followed by an update
of that key to any status s leaves a status query on the key returning s,
both when the update succeeds and when it signals the no-op error because
s equals the default initial status 1. -/
theorem no_lost_update (id : Int) (name author : String) (s : Int) (async : Int)
    (lib : Library) :
    book_is_borrow id (update_book id async s (add_book id name author lib).2).lib = s := by
  by_cases hs : (1 : Int) = s
  · simp [add_book, update_book, find_book, book_is_borrow, hs]
  · simp [add_book, update_book, find_book, replace_first, book_is_borrow, hs]

theorem find_book_id_eq (id : Int) (b : Book) (lib : Library)
    (h : find_book id lib = some b) : b.id = id := by
  induction lib with
  | nil => simp [find_book] at h
  | cons a rest ih =>
    rw [find_book] at h
    by_cases ha : a.id = id
    · rw [if_pos ha] at h
      rw [← Option.some.inj h]
      exact ha
    · exact ih (by rwa [if_neg ha] at h)

theorem print_book_eq_find_book (id : Int) (lib : Library) :
    print_book id lib = find_book id lib := by
  induction lib with
  | nil => rfl
  | cons a rest ih => rw [print_book, find_book, ih]

theorem uniqueKeys_demoLibrary : uniqueKeys demoLibrary := by
  intro k
  by_cases h1 : (1 : Int) = k <;> by_cases h0 : (0 : Int) = k <;>
    simp [demoLibrary, book0, book1, pubCount_cons, pubCount_nil, h1, h0] <;> omega

/-- C1: a successful update_book replaces, in place, the first record
whose id matches: the new library is the old one with the record at that
position replaced by a record carrying the same id, name and author and
the requested borrow status, so the traversal position and every other
record are unchanged, and the superseded record is the one handed to
reclamation. -/
theorem update_book_success_replaces (id async borrow : Int) (lib : Library)
    (h : (update_book id async borrow lib).ret = 0) :
    ∃ i, ∃ hi : i < lib.length,
      (lib.get ⟨i, hi⟩).id = id ∧
      (update_book id async borrow lib).lib =
        lib.set i { id := (lib.get ⟨i, hi⟩).id, name := (lib.get ⟨i, hi⟩).name,
                    author := (lib.get ⟨i, hi⟩).author, borrow := borrow } ∧
      (update_book id async borrow lib).retired = some (lib.get ⟨i, hi⟩) := by
  cases hfind : find_book id lib with
  | none =>
    rw [update_book] at h
    simp only [hfind] at h
    exact absurd h (by decide)
  | some old_b =>
    by_cases hb : old_b.borrow = borrow
    · rw [update_book] at h
      simp only [hfind, if_pos hb] at h
      exact absurd h (by decide)
    · obtain ⟨i, hi, hget, hid, hfirst⟩ := find_book_some_spec id old_b lib hfind
      have hm : (lib.get ⟨i, hi⟩).id = id := by rw [hget]; exact hid
      refine ⟨i, hi, hm, ?_, ?_⟩
      · rw [update_book]
        simp only [hfind, if_neg hb]
        rw [replace_first_at id _ lib i hi hm hfirst, hget]
      · rw [update_book]
        simp only [hfind, if_neg hb]
        rw [hget]

/-- C1 witness: updating id 0 of the demo library to status 0 succeeds
and replaces the matching record in place. -/
theorem update_book_success_replaces_witness :
    (update_book 0 0 0 demoLibrary).ret = 0 ∧
    (∃ i, ∃ hi : i < demoLibrary.length,
      (demoLibrary.get ⟨i, hi⟩).id = 0 ∧
      (update_book 0 0 0 demoLibrary).lib =
        demoLibrary.set i
          { id := (demoLibrary.get ⟨i, hi⟩).id, name := (demoLibrary.get ⟨i, hi⟩).name,
            author := (demoLibrary.get ⟨i, hi⟩).author, borrow := 0 } ∧
      (update_book 0 0 0 demoLibrary).retired = some (demoLibrary.get ⟨i, hi⟩)) :=
  ⟨rfl, update_book_success_replaces 0 0 0 demoLibrary rfl⟩

/-- C2: when no published record carries the requested id, or when the
first matching record already has the requested borrow status, update_book
fails with -EINVAL and performs no allocation, no splice and no
reclamation: the result is exactly the error code with the library
unchanged, nothing retired and zero kzalloc calls. -/
theorem update_book_failure_no_effect (id async borrow : Int) (lib : Library)
    (h : find_book id lib = none ∨
      ∃ b, find_book id lib = some b ∧ b.borrow = borrow) :
    update_book id async borrow lib =
      { ret := -22, lib := lib, retired := none, allocs := 0 } := by
  cases h with
  | inl hnone =>
    rw [update_book]
    simp only [hnone]
  | inr hsome =>
    obtain ⟨b, hb, hbb⟩ := hsome
    rw [update_book]
    simp only [hb, if_pos hbb]

/-- C2 witness: update of the absent id 5 and no-op update of id 0 to its
current status 1 both fail and leave the demo library untouched. -/
theorem update_book_failure_no_effect_witness :
    update_book 5 0 1 demoLibrary =
      { ret := -22, lib := demoLibrary, retired := none, allocs := 0 } ∧
    update_book 0 0 1 demoLibrary =
      { ret := -22, lib := demoLibrary, retired := none, allocs := 0 } :=
  ⟨update_book_failure_no_effect 5 0 1 demoLibrary (Or.inl rfl),
   update_book_failure_no_effect 0 0 1 demoLibrary (Or.inr ⟨book0, rfl, rfl⟩)⟩

/-- C3 counterexample: on the demo library the no-op update (id 0 is
present and already has borrow 1) and the not-found update (id 5 is
absent) both return -22 (-EINVAL), so the returned value alone does not
distinguish the two failure cases and the claim as stated is false. -/
theorem update_book_noop_notfound_same_value :
    find_book 0 demoLibrary = some book0 ∧ book0.borrow = 1 ∧
    find_book 5 demoLibrary = none ∧
    (update_book 0 0 1 demoLibrary).ret = -22 ∧
    (update_book 5 0 1 demoLibrary).ret = -22 ∧
    (update_book 0 0 1 demoLibrary).ret = (update_book 5 0 1 demoLibrary).ret :=
  ⟨rfl, rfl, rfl, rfl, rfl, rfl⟩

/-- C3 amended: both failure modes of update_book surface as the same
return value -22 (-EINVAL): any call failing because the id is absent
returns the same value as any call failing because the target already has
the requested status, so callers cannot distinguish key absent from
nothing to do by the returned value alone (only the kernel log messages
differ). -/
theorem update_book_failures_same_value (id1 async1 borrow1 : Int) (lib1 : Library)
    (id2 async2 borrow2 : Int) (lib2 : Library) (b : Book)
    (h1 : find_book id1 lib1 = none)
    (h2 : find_book id2 lib2 = some b) (hb : b.borrow = borrow2) :
    (update_book id1 async1 borrow1 lib1).ret =
      (update_book id2 async2 borrow2 lib2).ret := by
  rw [update_book, update_book]
  simp only [h1, h2, if_pos hb]

/-- C3 amended witness at the two concrete failing calls of the demo
library. -/
theorem update_book_failures_same_value_witness :
    (update_book 5 0 1 demoLibrary).ret = (update_book 0 0 1 demoLibrary).ret :=
  update_book_failures_same_value 5 0 1 demoLibrary 0 0 1 demoLibrary book0 rfl rfl rfl

/-- C4 counterexample: after inserting id 0 and then id 1 into the empty
library, the record for id 1 heads the traversal order and the record for
id 0 is last, so a successful insert publishes at the head, not at the
tail as the claim states. -/
theorem add_book_not_append :
    ((add_book 1 "Inside Linux Kernel" "Steve Jobs"
        (add_book 0 "A journey of linux kernel" "Tom Hoter" []).2).2.head?).map Book.id =
      some 1 ∧
    ((add_book 1 "Inside Linux Kernel" "Steve Jobs"
        (add_book 0 "A journey of linux kernel" "Tom Hoter" []).2).2.getLast?).map Book.id =
      some 0 :=
  ⟨rfl, rfl⟩

/-- C4 amended: a successful add_book publishes the new record at the
head of the traversal order: it becomes the first record visited by a
full traversal, and all previously published records keep their relative
order after it. -/
theorem add_book_prepends (id : Int) (name author : String) (lib : Library) :
    (add_book id name author lib).1 = 0 ∧
    (add_book id name author lib).2.head? =
      some { id := id, name := name.take 64, author := author.take 64, borrow := 1 } ∧
    (add_book id name author lib).2.tail = lib :=
  ⟨rfl, rfl, rfl⟩

/-- C5 counterexample: starting from a library satisfying the
at-most-one-record-per-key invariant, inserting id 0 a second time
publishes a second record with id 0 — add_book performs no duplicate-key
check, so insert does not preserve the invariant. -/
theorem add_book_duplicate_key :
    pubCount 0 (add_book 0 "A journey of linux kernel" "Tom Hoter" []).2 = 1 ∧
    pubCount 0
      (add_book 0 "x" "y" (add_book 0 "A journey of linux kernel" "Tom Hoter" []).2).2 = 2 :=
  ⟨rfl, rfl⟩

/-- C5 amended: from any state satisfying the at-most-one-published-
record-per-key invariant, update_book and delete_book preserve it (the
status query is read-only and changes nothing), while add_book preserves
it exactly when the inserted key is not already published, since it
performs no duplicate-key check. -/
theorem ops_preserve_uniqueKeys (lib : Library) (hu : uniqueKeys lib) :
    (∀ id : Int, ∀ name author : String, pubCount id lib = 0 →
      uniqueKeys (add_book id name author lib).2) ∧
    (∀ id async borrow : Int, uniqueKeys (update_book id async borrow lib).lib) ∧
    (∀ id async : Int, uniqueKeys (delete_book id async lib).lib) := by
  refine ⟨?_, ?_, ?_⟩
  · intro id name author h0 k
    simp only [add_book, pubCount_cons]
    split
    · rename_i hk
      have hk2 : id = k := hk
      subst hk2
      rw [h0]
    · have := hu k
      omega
  · intro id async borrow k
    cases hfind : find_book id lib with
    | none =>
      rw [update_book]
      simp only [hfind]
      exact hu k
    | some b =>
      by_cases hb : b.borrow = borrow
      · rw [update_book]
        simp only [hfind, if_pos hb]
        exact hu k
      · rw [update_book]
        simp only [hfind, if_neg hb]
        rw [pubCount_replace_first k id
          { id := b.id, name := b.name, author := b.author, borrow := borrow } lib
          (find_book_id_eq id b lib hfind)]
        exact hu k
  · intro id async k
    exact Nat.le_trans (pubCount_delete_le k id async lib) (hu k)

/-- C5 amended witness on the demo library, which satisfies the
invariant. -/
theorem ops_preserve_uniqueKeys_witness :
    (∀ id : Int, ∀ name author : String, pubCount id demoLibrary = 0 →
      uniqueKeys (add_book id name author demoLibrary).2) ∧
    (∀ id async borrow : Int, uniqueKeys (update_book id async borrow demoLibrary).lib) ∧
    (∀ id async : Int, uniqueKeys (delete_book id async demoLibrary).lib) :=
  ops_preserve_uniqueKeys demoLibrary uniqueKeys_demoLibrary

/-- C6: for a library holding at most one record with the requested key,
delete_book either finds the record with that key, unlinks exactly it
(the result is the library with that position spliced out), retires it
and returns 0, after which the status query on that key reports not-exist
(-1) while the status query for every other key is unchanged; or no
record matches and it returns -1 with the library unchanged and nothing
retired. -/
theorem delete_book_spec (id async : Int) (lib : Library)
    (hone : pubCount id lib ≤ 1) :
    ((delete_book id async lib).ret = 0 ∧
      (∃ i, ∃ hi : i < lib.length,
        (lib.get ⟨i, hi⟩).id = id ∧
        (delete_book id async lib).retired = some (lib.get ⟨i, hi⟩) ∧
        (delete_book id async lib).lib = lib.eraseIdx i) ∧
      book_is_borrow id (delete_book id async lib).lib = -1 ∧
      (∀ k : Int, k ≠ id →
        book_is_borrow k (delete_book id async lib).lib = book_is_borrow k lib))
    ∨ (find_book id lib = none ∧
        delete_book id async lib = { ret := -1, lib := lib, retired := none }) := by
  cases hfind : find_book id lib with
  | none => exact Or.inr ⟨rfl, delete_book_not_found id async lib hfind⟩
  | some b =>
    obtain ⟨i, hi, hget, hid, hfirst⟩ := find_book_some_spec id b lib hfind
    have hm : (lib.get ⟨i, hi⟩).id = id := by rw [hget]; exact hid
    have hdel := delete_book_at id async lib i hi hm hfirst
    have hcount := delete_book_count id async lib b hfind
    have hzero : pubCount id (delete_book id async lib).lib = 0 := by omega
    refine Or.inl ⟨?_, ⟨i, hi, hm, ?_, ?_⟩, ?_, ?_⟩
    · rw [hdel]
    · rw [hdel]
    · rw [hdel]
    · exact book_is_borrow_of_find_none id _ (find_book_of_count_zero id _ hzero)
    · intro k hk
      exact delete_book_frame id async k lib hk

/-- C6 witness: deleting id 0 from the demo library. -/
theorem delete_book_spec_witness :
    pubCount 0 demoLibrary ≤ 1 ∧
    (((delete_book 0 0 demoLibrary).ret = 0 ∧
      (∃ i, ∃ hi : i < demoLibrary.length,
        (demoLibrary.get ⟨i, hi⟩).id = 0 ∧
        (delete_book 0 0 demoLibrary).retired = some (demoLibrary.get ⟨i, hi⟩) ∧
        (delete_book 0 0 demoLibrary).lib = demoLibrary.eraseIdx i) ∧
      book_is_borrow 0 (delete_book 0 0 demoLibrary).lib = -1 ∧
      (∀ k : Int, k ≠ 0 →
        book_is_borrow k (delete_book 0 0 demoLibrary).lib = book_is_borrow k demoLibrary))
    ∨ (find_book 0 demoLibrary = none ∧
        delete_book 0 0 demoLibrary = { ret := -1, lib := demoLibrary, retired := none })) :=
  ⟨by decide, delete_book_spec 0 0 demoLibrary (by decide)⟩

/-- C10: every key-searching operation scans in traversal order and acts
on the first record whose id matches, even when later records carry the
same id: the scan and the diagnostic print return exactly that record,
the status query returns its borrow field, replace_first (the splice of
update_book) replaces exactly that position — so a successful update_book
rewrites only it — and delete_book unlinks exactly that position, leaving
every other record untouched. -/
theorem first_match_semantics (lib : Library) (id : Int) (i : Nat)
    (hi : i < lib.length) (hm : (lib.get ⟨i, hi⟩).id = id)
    (hf : ∀ j, ∀ hj : j < lib.length, j < i → (lib.get ⟨j, hj⟩).id ≠ id) :
    find_book id lib = some (lib.get ⟨i, hi⟩) ∧
    book_is_borrow id lib = (lib.get ⟨i, hi⟩).borrow ∧
    print_book id lib = some (lib.get ⟨i, hi⟩) ∧
    (∀ nb : Book, replace_first id nb lib = lib.set i nb) ∧
    (∀ async : Int, delete_book id async lib =
      { ret := 0, lib := lib.eraseIdx i, retired := some (lib.get ⟨i, hi⟩) }) ∧
    (∀ async borrow : Int, (lib.get ⟨i, hi⟩).borrow ≠ borrow →
      update_book id async borrow lib =
        { ret := 0, lib := lib.set i { lib.get ⟨i, hi⟩ with borrow := borrow },
          retired := some (lib.get ⟨i, hi⟩), allocs := 1 }) := by
  have hfind := find_book_at id lib i hi hm hf
  refine ⟨hfind, book_is_borrow_at id lib i hi hm hf, ?_,
    fun nb => replace_first_at id nb lib i hi hm hf,
    fun async => delete_book_at id async lib i hi hm hf, ?_⟩
  · rw [print_book_eq_find_book]
    exact hfind
  · intro async borrow hb
    rw [update_book]
    simp only [hfind, if_neg hb]
    rw [replace_first_at id _ lib i hi hm hf]

/-- C10 witness: on a library holding two records with id 0, every
operation acts on the record nearest the head. -/
theorem first_match_semantics_witness :
    (0 < dupLibrary.length) ∧
    (find_book 0 dupLibrary = some (dupLibrary.get ⟨0, by decide⟩) ∧
     book_is_borrow 0 dupLibrary = (dupLibrary.get ⟨0, by decide⟩).borrow ∧
     print_book 0 dupLibrary = some (dupLibrary.get ⟨0, by decide⟩) ∧
     (∀ nb : Book, replace_first 0 nb dupLibrary = dupLibrary.set 0 nb) ∧
     (∀ async : Int, delete_book 0 async dupLibrary =
       { ret := 0, lib := dupLibrary.eraseIdx 0,
         retired := some (dupLibrary.get ⟨0, by decide⟩) }) ∧
     (∀ async borrow : Int, (dupLibrary.get ⟨0, by decide⟩).borrow ≠ borrow →
       update_book 0 async borrow dupLibrary =
         { ret := 0,
           lib := dupLibrary.set 0 { dupLibrary.get ⟨0, by decide⟩ with borrow := borrow },
           retired := some (dupLibrary.get ⟨0, by decide⟩), allocs := 1 })) :=
  ⟨by decide, first_match_semantics dupLibrary 0 0 (by decide) rfl
    (fun j hj hj0 => absurd hj0 (Nat.not_lt_zero j))⟩

end ListRcu
